import Mathlib

/-!
Verification development for the Job_api priority job queue.

The embedding below translates the Python source (src/config.py, src/models.py,
src/database.py, src/worker.py, src/app.py) into Lean:

* `Job` mirrors `models.Job` with its mutators `mark_picked`, `mark_completed`,
  `mark_failed`, `should_retry`.  Timestamps (`datetime.now().isoformat()`)
  are modelled by a logical clock `now : Nat` passed to each operation.
  Payloads are opaque to the engine and modelled as strings.
* The SQLite table of `database.Database` is a key-addressed association list
  (`Store`); `save_job` is INSERT OR REPLACE keyed by `job_id`.  A write that
  fails is modelled by the boolean parameter `dbOk` (the code catches the
  exception inside `Database.save_job`, logs, and returns `False`, which is
  what `dbOk = false` reproduces: the table is left unchanged and the boolean
  result is `false`).
* The Redis sorted set `job_queue` is a list of (member, score) pairs with
  distinct members (`SortedSet`); `zadd` replaces the member's entry and
  `zpopmin` removes the entry with the least score, ties broken by the
  lexicographically least member, exactly as Redis orders a sorted set.
* The worker (`get_next_job`, `execute_job`, `process_job`,
  `handle_job_failure`, one iteration of `JobWorker.start`'s loop) is
  translated statement by statement.  Side effects that the claims speak about
  (persists, the `should_retry` decisions, the backoff sleep, the re-enqueue,
  the permanent-failure alert) are additionally recorded in an event trace so
  that ordering properties can be stated.  The mock executors draw on
  `random.random()`; their outcome is modelled by a parameter
  `outcome : Job → Bool`.  An invalid `priority` reaching
  `Config.PRIORITY_SCORES[...]` would raise a KeyError in Python; the model
  totalises that lookup with `Option.getD _ 0`, and theorems that depend on
  the score restrict to the priorities the validated API can produce.
* `submit_job` mirrors the `/submit-job` Flask handler: the validation
  cascade, then the store write, then the broker insert; `uuid4` freshness is
  a hypothesis on the caller-supplied id.
-/

namespace JobApi

/-- Config.MAX_RETRIES (src/config.py line 13). -/
def MAX_RETRIES : Nat := 3

/-- Config.RETRY_DELAYS (src/config.py line 14): the backoff table 1s, 4s, 9s. -/
def RETRY_DELAYS : List Nat := [1, 4, 9]

/-- Config.PRIORITY_SCORES (src/config.py lines 20-23): lower score means
higher priority; any other key is absent (a KeyError in Python). -/
def PRIORITY_SCORES : String → Option Nat := fun p =>
  if p = "high" then some 1 else if p = "low" then some 2 else none

/-- models.Job: one persisted job record.  The status strings used by the code
are "pending", "processing", "completed", "failed" (the spec calls the last
two states `running` and `failed_permanent`). -/
structure Job where
  job_id : String
  job_type : String
  priority : String
  payload : String
  status : String
  retry_count : Nat
  created_at : Nat
  picked_at : Option Nat
  completed_at : Option Nat
  error_message : Option String
deriving DecidableEq, Repr

/-- models.Job.__init__: a fresh record is pending with zero retries. -/
def mkJob (job_type priority payload job_id : String) (now : Nat) : Job :=
  { job_id := job_id, job_type := job_type, priority := priority,
    payload := payload, status := "pending", retry_count := 0,
    created_at := now, picked_at := none, completed_at := none,
    error_message := none }

/-- models.Job.mark_picked. -/
def Job.mark_picked (j : Job) (now : Nat) : Job :=
  { j with status := "processing", picked_at := some now }

/-- models.Job.mark_completed. -/
def Job.mark_completed (j : Job) (now : Nat) : Job :=
  { j with status := "completed", completed_at := some now }

/-- models.Job.mark_failed: the only mutator of `retry_count`. -/
def Job.mark_failed (j : Job) (msg : String) (now : Nat) : Job :=
  { j with status := "failed", completed_at := some now,
           error_message := some msg, retry_count := j.retry_count + 1 }

/-- models.Job.should_retry. -/
def Job.should_retry (j : Job) (max_retries : Nat) : Bool :=
  j.retry_count < max_retries

/-- The SQLite jobs table, key-addressed by job_id. -/
abbrev Store := List (String × Job)

/-- Rows with the given key removed (the REPLACE half of INSERT OR REPLACE). -/
def removeKey : Store → String → Store
  | [], _ => []
  | e :: rest, id => if e.1 = id then removeKey rest id else e :: removeKey rest id

/-- database.Database.save_job: INSERT OR REPLACE keyed by job_id. -/
def save_job (s : Store) (j : Job) : Store :=
  (j.job_id, j) :: removeKey s j.job_id

/-- database.Database.get_job: SELECT by primary key. -/
def get_job : Store → String → Option Job
  | [], _ => none
  | e :: rest, id => if e.1 = id then some e.2 else get_job rest id

/-- The Redis sorted set job_queue: (member, score) pairs, distinct members. -/
abbrev SortedSet := List (String × Nat)

/-- Entries for the given member removed (ZADD overwrites an existing member). -/
def removeMember : SortedSet → String → SortedSet
  | [], _ => []
  | e :: rest, id => if e.1 = id then removeMember rest id else e :: removeMember rest id

/-- redis ZADD: insert the member with the given score, replacing any previous
entry for that member. -/
def zadd (q : SortedSet) (id : String) (score : Nat) : SortedSet :=
  (id, score) :: removeMember q id

/-- The least entry of the sorted set: least score, ties broken by the
lexicographically least member (Redis sorted-set order). -/
def minEntry : SortedSet → Option (String × Nat)
  | [] => none
  | x :: xs =>
    match minEntry xs with
    | none => some x
    | some m =>
      some (if m.2 < x.2 then m else if m.2 = x.2 ∧ m.1 < x.1 then m else x)

/-- First occurrence of the given entry removed. -/
def removeEntry : SortedSet → (String × Nat) → SortedSet
  | [], _ => []
  | x :: xs, e => if x = e then xs else x :: removeEntry xs e

/-- redis ZPOPMIN: remove and return the least entry, if any. -/
def zpopmin (q : SortedSet) : Option ((String × Nat) × SortedSet) :=
  match minEntry q with
  | none => none
  | some e => some (e, removeEntry q e)

/-- The shared mutable state: the durable store and the priority broker. -/
structure SysState where
  store : Store
  queue : SortedSet
deriving DecidableEq, Repr

/-- Observable side effects of one worker step, in program order. -/
inductive Event where
  | markFailed (retry_count : Nat) (msg : String)
  | decideRetry (result : Bool)
  | alert (id : String)
  | setPending (id : String)
  | persist (j : Job) (ok : Bool)
  | sleep (seconds : Nat)
  | enqueue (id : String) (score : Nat)
  | execute (success : Bool)
  | markCompleted (id : String)
deriving DecidableEq, Repr

/-- worker.JobWorker.get_next_job (src/worker.py lines 38-58): pop the least
entry; if the record exists and is pending, mark it processing, persist, and
return it; otherwise the popped entry is discarded and the call returns
nothing. -/
def get_next_job (dbOk : Bool) (st : SysState) (now : Nat) :
    Option Job × SysState :=
  match zpopmin st.queue with
  | none => (none, st)
  | some (e, q1) =>
    match get_job st.store e.1 with
    | none => (none, { st with queue := q1 })
    | some job =>
      if job.status = "pending" then
        let j := job.mark_picked now
        (some j, { store := if dbOk then save_job st.store j else st.store,
                   queue := q1 })
      else
        (none, { st with queue := q1 })

/-- worker.JobWorker.execute_job (src/worker.py lines 81-91): dispatch on the
job type; the three registered handlers are the mocks whose random outcome is
`outcome`; an unknown type returns failure. -/
def execute_job (outcome : Job → Bool) (j : Job) : Bool :=
  if j.job_type = "send_email" then outcome j
  else if j.job_type = "process_data" then outcome j
  else if j.job_type = "generate_report" then outcome j
  else false

/-- worker.JobWorker.handle_job_failure (src/worker.py lines 153-182),
statement by statement: `mark_failed`, the `should_retry` check guarding the
alert, the `should_retry` check choosing the branch; on retry: reset status to
pending, persist, sleep the backoff delay, re-add to the broker with the score
from the priority table; otherwise persist the failed record. -/
def handle_job_failure (dbOk : Bool) (st : SysState) (j : Job) (msg : String)
    (now : Nat) : SysState × List Event :=
  let j1 := j.mark_failed msg now
  let sr := j1.should_retry MAX_RETRIES
  let ev1 := [Event.markFailed j1.retry_count msg, Event.decideRetry sr] ++
    (if sr then [] else [Event.alert j1.job_id]) ++ [Event.decideRetry sr]
  if sr then
    let retry_delay := RETRY_DELAYS.getD (j1.retry_count - 1) 0
    let j2 := { j1 with status := "pending" }
    let st1 : SysState :=
      { st with store := if dbOk then save_job st.store j2 else st.store }
    let score := (PRIORITY_SCORES j2.priority).getD 0
    (⟨st1.store, zadd st1.queue j2.job_id score⟩,
     ev1 ++ [Event.setPending j2.job_id, Event.persist j2 dbOk,
             Event.sleep retry_delay, Event.enqueue j2.job_id score])
  else
    ({ st with store := if dbOk then save_job st.store j1 else st.store },
     ev1 ++ [Event.persist j1 dbOk])

/-- worker.JobWorker.process_job (src/worker.py lines 60-79): run the
executor; on success mark completed and persist, on failure hand over to
`handle_job_failure` with the fixed message the code passes there. -/
def process_job (outcome : Job → Bool) (dbOk : Bool) (st : SysState) (j : Job)
    (now : Nat) : SysState × List Event :=
  let success := execute_job outcome j
  if success then
    let j1 := j.mark_completed now
    ({ st with store := if dbOk then save_job st.store j1 else st.store },
     [Event.execute true, Event.markCompleted j1.job_id, Event.persist j1 dbOk])
  else
    let r := handle_job_failure dbOk st j "Job execution failed" now
    (r.1, Event.execute false :: r.2)

/-- One iteration of worker.JobWorker.start's loop (src/worker.py lines
27-32): dequeue, and process the job when one was dispatched. -/
def worker_iteration (outcome : Job → Bool) (dbOk : Bool) (st : SysState)
    (now : Nat) : SysState × List Event :=
  match get_next_job dbOk st now with
  | (none, st1) => (st1, [])
  | (some j, st1) => process_job outcome dbOk st1 j now

/-- `n` consecutive worker iterations starting at logical time `t`. -/
def run (outcome : Job → Bool) (dbOk : Bool) :
    Nat → SysState → Nat → SysState
  | 0, st, _ => st
  | n + 1, st, t => run outcome dbOk n (worker_iteration outcome dbOk st t).1 (t + 1)

/-- The JSON body of a /submit-job request; a field absent from the JSON
object is `none`. -/
structure ReqBody where
  job_type : Option String
  priority : Option String
  payload : Option String
deriving DecidableEq, Repr

/-- app.submit_job (src/app.py lines 37-90): the validation cascade (missing
body, then each missing field in order, then the priority whitelist, then the
job_type whitelist), then create the record, save it (500 and no broker
insert when the store write fails), then ZADD with the priority score.
Returns the HTTP status code and the resulting state. -/
def submit_job (dbOk : Bool) (body : Option ReqBody) (new_id : String)
    (now : Nat) (st : SysState) : Nat × SysState :=
  match body with
  | none => (400, st)
  | some b =>
    match b.job_type with
    | none => (400, st)
    | some jt =>
      match b.priority with
      | none => (400, st)
      | some pr =>
        match b.payload with
        | none => (400, st)
        | some pl =>
          if pr = "high" ∨ pr = "low" then
            if jt = "send_email" ∨ jt = "process_data" ∨ jt = "generate_report" then
              if dbOk then
                let job := mkJob jt pr pl new_id now
                let st1 : SysState := { st with store := save_job st.store job }
                let score := (PRIORITY_SCORES pr).getD 0
                (201, ⟨st1.store, zadd st1.queue job.job_id score⟩)
              else (500, st)
            else (400, st)
          else (400, st)

/-! Helper lemmas about the store. -/

theorem get_job_removeKey_self (s : Store) (id : String) :
    get_job (removeKey s id) id = none := by
  induction s with
  | nil => rfl
  | cons e rest ih => by_cases h : e.1 = id <;> simp [removeKey, get_job, h, ih]

theorem get_job_removeKey_ne (s : Store) (id id' : String) (h : id' ≠ id) :
    get_job (removeKey s id) id' = get_job s id' := by
  have h2 : id ≠ id' := Ne.symm h
  induction s with
  | nil => rfl
  | cons e rest ih =>
    by_cases he : e.1 = id
    · simp [removeKey, get_job, he, ih, h2]
    · by_cases he' : e.1 = id' <;> simp [removeKey, get_job, he, he', ih, h, h2]

theorem get_job_save_self (s : Store) (j : Job) :
    get_job (save_job s j) j.job_id = some j := by
  simp [save_job, get_job]

theorem get_job_save_ne (s : Store) (j : Job) (id : String) (h : id ≠ j.job_id) :
    get_job (save_job s j) id = get_job s id := by
  have : j.job_id ≠ id := Ne.symm h
  simp [save_job, get_job, this, get_job_removeKey_ne s j.job_id id h]

/-! Helper lemmas about the sorted set. -/

theorem minEntry_eq_none (q : SortedSet) : minEntry q = none ↔ q = [] := by
  cases q with
  | nil => simp [minEntry]
  | cons x xs =>
    rw [minEntry]
    cases minEntry xs <;> simp

theorem minEntry_mem (q : SortedSet) :
    ∀ e, minEntry q = some e → e ∈ q := by
  induction q with
  | nil => intro e h; simp [minEntry] at h
  | cons x xs ih =>
    intro e h
    rw [minEntry] at h
    cases hm : minEntry xs with
    | none =>
      rw [hm] at h
      simp only [Option.some.injEq] at h
      simp [← h]
    | some m =>
      rw [hm] at h
      have hmx : m ∈ xs := ih m hm
      simp only [Option.some.injEq] at h
      subst h
      split
      · exact List.mem_cons_of_mem _ hmx
      · split
        · exact List.mem_cons_of_mem _ hmx
        · exact List.mem_cons_self _ _

theorem minEntry_le (q : SortedSet) :
    ∀ e, minEntry q = some e → ∀ a ∈ q, e.2 ≤ a.2 := by
  induction q with
  | nil => intro e h; simp [minEntry] at h
  | cons x xs ih =>
    intro e h a ha
    rw [minEntry] at h
    cases hm : minEntry xs with
    | none =>
      have hxs : xs = [] := (minEntry_eq_none xs).mp hm
      subst hxs
      rw [hm] at h
      simp only [Option.some.injEq] at h
      subst h
      simp at ha
      simp [ha]
    | some m =>
      rw [hm] at h
      have hmin : ∀ b ∈ xs, m.2 ≤ b.2 := ih m hm
      simp only [Option.some.injEq] at h
      subst h
      rcases List.mem_cons.mp ha with rfl | hax
      · split
        · omega
        · split <;> omega
      · have := hmin a hax
        split
        · omega
        · split <;> omega

theorem removeEntry_sublist (q : SortedSet) (e : String × Nat) :
    List.Sublist (removeEntry q e) q := by
  induction q with
  | nil => simp [removeEntry]
  | cons x xs ih =>
    rw [removeEntry]
    by_cases h : x = e
    · simp [h]
    · simp only [h, if_false]
      exact List.Sublist.cons₂ x ih

theorem mem_of_mem_removeEntry (q : SortedSet) (e a : String × Nat)
    (h : a ∈ removeEntry q e) : a ∈ q :=
  (removeEntry_sublist q e).subset h

theorem mem_removeEntry_of_fst_ne (q : SortedSet) (e a : String × Nat)
    (h : a.1 ≠ e.1) : a ∈ removeEntry q e ↔ a ∈ q := by
  have hne : a ≠ e := fun hc => h (hc ▸ rfl)
  induction q with
  | nil => simp [removeEntry]
  | cons x xs ih =>
    rw [removeEntry]
    by_cases hx : x = e
    · subst hx
      simp only [List.mem_cons]
      exact ⟨fun hm => Or.inr hm, fun hm => hm.resolve_left hne⟩
    · simp only [hx, if_false, List.mem_cons, ih]

theorem not_mem_removeEntry_self (q : SortedSet) (e : String × Nat)
    (hnd : (q.map Prod.fst).Nodup) (he : e ∈ q) (sc : Nat) :
    (e.1, sc) ∉ removeEntry q e := by
  induction q with
  | nil => simp [removeEntry]
  | cons x xs ih =>
    rw [removeEntry]
    simp only [List.map_cons, List.nodup_cons] at hnd
    obtain ⟨hx1, hnd2⟩ := hnd
    by_cases hx : x = e
    · subst hx
      simp only [if_pos rfl]
      intro hc
      exact hx1 (List.mem_map.mpr ⟨(x.1, sc), hc, rfl⟩)
    · have hexs : e ∈ xs := (List.mem_cons.mp he).resolve_left (fun hc => hx hc.symm)
      simp only [hx, if_false, List.mem_cons]
      intro hc
      rcases hc with heq | hmem
      · exact hx1 (List.mem_map.mpr ⟨e, hexs, by rw [← heq]⟩)
      · exact ih hnd2 hexs hmem

theorem nodup_fst_removeEntry (q : SortedSet) (e : String × Nat)
    (hnd : (q.map Prod.fst).Nodup) : ((removeEntry q e).map Prod.fst).Nodup :=
  hnd.sublist ((removeEntry_sublist q e).map Prod.fst)

theorem removeMember_sublist (q : SortedSet) (id : String) :
    List.Sublist (removeMember q id) q := by
  induction q with
  | nil => simp [removeMember]
  | cons x xs ih =>
    rw [removeMember]
    by_cases h : x.1 = id
    · simp only [h, if_true]
      exact ih.cons x
    · simp only [h, if_false]
      exact List.Sublist.cons₂ x ih

theorem fst_ne_of_mem_removeMember (q : SortedSet) (id : String)
    (a : String × Nat) (h : a ∈ removeMember q id) : a.1 ≠ id := by
  induction q with
  | nil => simp [removeMember] at h
  | cons x xs ih =>
    rw [removeMember] at h
    by_cases hx : x.1 = id
    · rw [if_pos hx] at h
      exact ih h
    · rw [if_neg hx] at h
      rcases List.mem_cons.mp h with rfl | hmem
      · exact hx
      · exact ih hmem

theorem mem_removeMember_of_fst_ne (q : SortedSet) (id : String)
    (a : String × Nat) (h : a.1 ≠ id) : a ∈ removeMember q id ↔ a ∈ q := by
  induction q with
  | nil => simp [removeMember]
  | cons x xs ih =>
    rw [removeMember]
    by_cases hx : x.1 = id
    · have hax : a ≠ x := fun hc => h (hc ▸ hx)
      simp only [hx, if_true, List.mem_cons, ih]
      exact ⟨fun hm => Or.inr hm, fun hm => hm.resolve_left hax⟩
    · simp only [hx, if_false, List.mem_cons, ih]

theorem nodup_fst_zadd (q : SortedSet) (id : String) (s : Nat)
    (hnd : (q.map Prod.fst).Nodup) : ((zadd q id s).map Prod.fst).Nodup := by
  rw [zadd]
  simp only [List.map_cons, List.nodup_cons]
  constructor
  · intro hc
    obtain ⟨a, ha, ha1⟩ := List.mem_map.mp hc
    exact fst_ne_of_mem_removeMember q id a ha ha1
  · exact hnd.sublist ((removeMember_sublist q id).map Prod.fst)

theorem zpopmin_eq_some (q : SortedSet) (e : String × Nat) (q1 : SortedSet)
    (h : zpopmin q = some (e, q1)) :
    minEntry q = some e ∧ q1 = removeEntry q e := by
  rw [zpopmin] at h
  cases hm : minEntry q with
  | none => rw [hm] at h; simp at h
  | some m =>
    rw [hm] at h
    simp only [Option.some.injEq, Prod.mk.injEq] at h
    obtain ⟨h1, h2⟩ := h
    subst h1
    exact ⟨rfl, h2.symm⟩

/-! Trace predicates used to state ordering properties. -/

/-- Tests for a persistence event in a trace. -/
def isPersist : Event → Bool
  | Event.persist _ _ => true
  | _ => false

/-- Tests for a should_retry decision event in a trace. -/
def isDecide : Event → Bool
  | Event.decideRetry _ => true
  | _ => false

/-- Tests for a backoff sleep event in a trace. -/
def isSleepEv : Event → Bool
  | Event.sleep _ => true
  | _ => false

/-- Tests for a status-reset-to-pending event in a trace. -/
def isSetPendingEv : Event → Bool
  | Event.setPending _ => true
  | _ => false

/-- Index of the first event satisfying the predicate, if any. -/
def firstIdx (p : Event → Bool) : List Event → Option Nat
  | [] => none
  | e :: rest => if p e then some 0 else (firstIdx p rest).map (· + 1)

/-- Claim C7: the backoff schedule RETRY_DELAYS is a fixed table whose length
equals the retry bound MAX_RETRIES, it is non-decreasing in 1-based attempt
order (backoff(k) ≤ backoff(k+1) for 1 ≤ k < bound), and the delay slept
before the k-th retry — the Event.sleep emitted by the retry branch of
handle_job_failure after the k-th failure, k = j.retry_count + 1 — equals the
k-th table entry RETRY_DELAYS[k-1]. -/
theorem c7_backoff_schedule :
    RETRY_DELAYS.length = MAX_RETRIES ∧
    (∀ k, 1 ≤ k → k < MAX_RETRIES →
      RETRY_DELAYS.getD (k - 1) 0 ≤ RETRY_DELAYS.getD k 0) ∧
    (∀ (dbOk : Bool) (st : SysState) (j : Job) (msg : String) (now : Nat),
      j.retry_count + 1 < MAX_RETRIES →
      Event.sleep (RETRY_DELAYS.getD j.retry_count 0) ∈
        (handle_job_failure dbOk st j msg now).2) := by
  refine ⟨by decide, ?_, ?_⟩
  · intro k h1 h2
    rw [MAX_RETRIES] at h2
    interval_cases k <;> decide
  · intro dbOk st j msg now h
    have hsr : (j.mark_failed msg now).should_retry MAX_RETRIES = true := by
      simp only [Job.should_retry, Job.mark_failed, decide_eq_true_eq]
      exact h
    rw [handle_job_failure]
    simp only [hsr]
    simp [Job.mark_failed]

/-- Concrete instance of the C7 theorem at k = 1 and a fresh job. -/
theorem c7_backoff_schedule_witness :
    (1 ≤ 1 ∧ 1 < MAX_RETRIES ∧
      RETRY_DELAYS.getD 0 0 ≤ RETRY_DELAYS.getD 1 0) ∧
    ((mkJob "send_email" "high" "p" "w7" 0).retry_count + 1 < MAX_RETRIES ∧
      Event.sleep
          (RETRY_DELAYS.getD (mkJob "send_email" "high" "p" "w7" 0).retry_count 0) ∈
        (handle_job_failure true ⟨[], []⟩ (mkJob "send_email" "high" "p" "w7" 0)
          "boom" 5).2) :=
  ⟨⟨by decide, by decide, c7_backoff_schedule.2.1 1 (by decide) (by decide)⟩,
   ⟨by decide, c7_backoff_schedule.2.2 true ⟨[], []⟩
      (mkJob "send_email" "high" "p" "w7" 0) "boom" 5 (by decide)⟩⟩

/-- Claim C10: a /submit-job request whose body is missing job_type, priority
or payload, or whose priority is outside the set of priority classes high and
low, or whose job_type is not one of the three registered kinds, is answered
400 and leaves the durable store and the priority broker completely
unchanged. -/
theorem c10_submit_validation (dbOk : Bool) (b : ReqBody) (new_id : String)
    (now : Nat) (st : SysState)
    (h : b.job_type = none ∨ b.priority = none ∨ b.payload = none ∨
         (∃ p, b.priority = some p ∧ p ≠ "high" ∧ p ≠ "low") ∨
         (∃ t, b.job_type = some t ∧ t ≠ "send_email" ∧ t ≠ "process_data" ∧
               t ≠ "generate_report")) :
    submit_job dbOk (some b) new_id now st = (400, st) := by
  obtain ⟨jt, pr, pl⟩ := b
  rcases jt with _ | jt
  · rfl
  rcases pr with _ | pr
  · rfl
  rcases pl with _ | pl
  · rfl
  simp only [Option.some.injEq, reduceCtorEq, false_or] at h
  rw [submit_job]
  rcases h with ⟨p, hp, hp1, hp2⟩ | ⟨t, ht, ht1, ht2, ht3⟩
  · cases hp
    simp [hp1, hp2]
  · cases ht
    by_cases hpr : pr = "high" ∨ pr = "low"
    · simp [hpr, ht1, ht2, ht3]
    · simp [hpr]

/-- Concrete instance of the C10 theorem: an invalid priority is rejected
with 400 and the state is untouched. -/
theorem c10_submit_validation_witness :
    submit_job true (some ⟨some "send_email", some "medium", some "x"⟩)
        "w10" 0 ⟨[], []⟩ = (400, ⟨[], []⟩) :=
  c10_submit_validation true ⟨some "send_email", some "medium", some "x"⟩
    "w10" 0 ⟨[], []⟩
    (Or.inr (Or.inr (Or.inr (Or.inl ⟨"medium", rfl, by decide, by decide⟩))))

/-! Concrete states used as counterexample inputs. -/

/-- A record that is already completed while (stale) its id still sits in the
broker — e.g. after a duplicate insert. -/
def staleJobA : Job :=
  { mkJob "send_email" "high" "p" "a" 0 with status := "completed" }

/-- A pending record behind the stale entry. -/
def pendingJobB : Job := mkJob "send_email" "low" "p" "b" 0

/-- Broker: stale entry for "a" (min score) in front of pending "b". -/
def staleState : SysState :=
  ⟨[("a", staleJobA), ("b", pendingJobB)], [("a", 1), ("b", 2)]⟩

/-- Claim C3 counterexample: on `staleState` the popped minimum entry "a"
refers to a non-pending record; the claim says the dispatcher must pop again
and return the pending job "b", but `get_next_job` returns none for the call
even though the broker still holds the pending job "b". -/
theorem c3_counterexample :
    (get_next_job true staleState 7).1 = none ∧
    get_job staleState.store "b" = some pendingJobB ∧
    pendingJobB.status = "pending" ∧
    ("b", 2) ∈ (get_next_job true staleState 7).2.queue := by decide

/-- Claim C3 (amended): when the popped broker entry refers to a missing
record or to a record whose status is not pending, get_next_job discards the
entry (the resulting queue is the remainder of the pop) and returns none for
that call, leaving the store untouched; the dequeue is retried only by the
worker loop's next iteration, not inside the call. -/
theorem c3_amended (dbOk : Bool) (st : SysState) (now : Nat) (e : String × Nat)
    (q1 : SortedSet) (hpop : zpopmin st.queue = some (e, q1))
    (hstale : get_job st.store e.1 = none ∨
      ∀ j, get_job st.store e.1 = some j → j.status ≠ "pending") :
    get_next_job dbOk st now = (none, { st with queue := q1 }) := by
  obtain ⟨eid, esc⟩ := e
  rcases hstale with hmiss | hns
  · have hmiss2 : get_job st.store eid = none := hmiss
    simp only [get_next_job, hpop, hmiss2]
  · cases hj : get_job st.store eid with
    | none => simp only [get_next_job, hpop, hj]
    | some job =>
      have hnp : job.status ≠ "pending" := hns job hj
      simp only [get_next_job, hpop, hj]
      simp [hnp]

/-- Concrete instance of the amended C3 theorem on `staleState`. -/
theorem c3_amended_witness :
    get_next_job true staleState 7 = (none, { staleState with queue := [("b", 2)] }) :=
  c3_amended true staleState 7 ("a", 1) [("b", 2)] (by decide)
    (Or.inr (fun j hj => by
      rw [show get_job staleState.store "a" = some staleJobA from by decide] at hj
      injection hj with h
      rw [← h]
      decide))

/-- Claim C4 counterexample: on a concrete failing job the trace of
handle_job_failure has its first should_retry decision at index 1 and its
first (and only) persist at index 4 — the retry/give-up decision precedes the
persist of the failure snapshot, refuting the claimed durability-first
ordering. -/
theorem c4_counterexample :
    firstIdx isDecide
        (handle_job_failure true ⟨[], []⟩ (mkJob "process_data" "low" "q" "d4" 0)
          "err4" 3).2 = some 1 ∧
    firstIdx isPersist
        (handle_job_failure true ⟨[], []⟩ (mkJob "process_data" "low" "q" "d4" 0)
          "err4" 3).2 = some 4 ∧
    ¬ (4 : Nat) < 1 := by decide

/-- Claim C4 (amended): in every failure-handling step the should_retry
decision is evaluated BEFORE the failure snapshot is persisted (the code
consults Job.should_retry at worker.py lines 158 and 164 and only then calls
update_job_status); the single persist of the step still carries the
incremented attempt count, the error message and the failure timestamp, but
in the retry branch the record is persisted with status already reset to
"pending" — a "failed" status is persisted only in the give-up branch. -/
theorem c4_amended (dbOk : Bool) (st : SysState) (j : Job) (msg : String)
    (now : Nat) :
    ∃ i k jp,
      firstIdx isDecide (handle_job_failure dbOk st j msg now).2 = some i ∧
      firstIdx isPersist (handle_job_failure dbOk st j msg now).2 = some k ∧
      i < k ∧
      (handle_job_failure dbOk st j msg now).2.getD k (Event.execute true) =
        Event.persist jp dbOk ∧
      jp.retry_count = j.retry_count + 1 ∧
      jp.error_message = some msg ∧
      jp.completed_at = some now ∧
      (jp.status = "pending" ∨ jp.status = "failed") := by
  rw [handle_job_failure]
  by_cases hsr : (j.mark_failed msg now).should_retry MAX_RETRIES = true
  · refine ⟨1, 4, { j.mark_failed msg now with status := "pending" }, ?_⟩
    simp only [hsr]
    simp [firstIdx, isDecide, isPersist, Job.mark_failed, List.getD]
  · refine ⟨1, 4, j.mark_failed msg now, ?_⟩
    simp only [hsr]
    simp [hsr, firstIdx, isDecide, isPersist, Job.mark_failed, List.getD]

/-- Claim C8 counterexample: on a concrete retried job the trace of
handle_job_failure sets the status to pending at index 3 and persists at
index 4 BEFORE sleeping the backoff at index 5 — not sleep first as the claim
states. -/
theorem c8_counterexample :
    firstIdx isSetPendingEv
        (handle_job_failure true ⟨[], []⟩
          { mkJob "generate_report" "high" "r" "e8" 0 with retry_count := 1 }
          "err8" 9).2 = some 3 ∧
    firstIdx isPersist
        (handle_job_failure true ⟨[], []⟩
          { mkJob "generate_report" "high" "r" "e8" 0 with retry_count := 1 }
          "err8" 9).2 = some 4 ∧
    firstIdx isSleepEv
        (handle_job_failure true ⟨[], []⟩
          { mkJob "generate_report" "high" "r" "e8" 0 with retry_count := 1 }
          "err8" 9).2 = some 5 ∧
    ¬ (5 : Nat) < 3 := by decide

/-- Claim C8 (amended): in the retry path the worker first sets the status
back to pending, then persists, THEN sleeps backoff(attempt_count), then
re-inserts the job id into the broker; the re-inserted score is the one the
priority table assigns to the job's (unchanged) priority class. -/
theorem c8_amended (dbOk : Bool) (st : SysState) (j : Job) (msg : String)
    (now : Nat) (h : j.retry_count + 1 < MAX_RETRIES) :
    (handle_job_failure dbOk st j msg now).2 =
      [Event.markFailed (j.retry_count + 1) msg, Event.decideRetry true,
       Event.decideRetry true, Event.setPending j.job_id,
       Event.persist { j.mark_failed msg now with status := "pending" } dbOk,
       Event.sleep (RETRY_DELAYS.getD j.retry_count 0),
       Event.enqueue j.job_id ((PRIORITY_SCORES j.priority).getD 0)] ∧
    (handle_job_failure dbOk st j msg now).1.queue =
      zadd st.queue j.job_id ((PRIORITY_SCORES j.priority).getD 0) := by
  have hsr : (j.mark_failed msg now).should_retry MAX_RETRIES = true := by
    simp only [Job.should_retry, Job.mark_failed, decide_eq_true_eq]
    exact h
  rw [handle_job_failure]
  simp only [hsr]
  simp [Job.mark_failed]

/-- Concrete instance of the amended C8 theorem. -/
theorem c8_amended_witness :
    ((mkJob "send_email" "low" "p" "w8" 2).retry_count + 1 < MAX_RETRIES) ∧
    (handle_job_failure true ⟨[], []⟩ (mkJob "send_email" "low" "p" "w8" 2)
        "boom" 6).2 =
      [Event.markFailed ((mkJob "send_email" "low" "p" "w8" 2).retry_count + 1)
         "boom",
       Event.decideRetry true, Event.decideRetry true, Event.setPending "w8",
       Event.persist
         { ((mkJob "send_email" "low" "p" "w8" 2).mark_failed "boom" 6) with
             status := "pending" } true,
       Event.sleep
         (RETRY_DELAYS.getD (mkJob "send_email" "low" "p" "w8" 2).retry_count 0),
       Event.enqueue "w8" ((PRIORITY_SCORES "low").getD 0)] :=
  ⟨by decide,
   ((c8_amended true ⟨[], []⟩ (mkJob "send_email" "low" "p" "w8" 2) "boom" 6
      (by decide)).1)⟩

/-- A record in the middle of an execution attempt, as the worker holds it. -/
def runningJobC : Job :=
  { mkJob "send_email" "high" "p" "c" 0 with
      status := "processing",
      picked_at := some 1 }

/-- Durable state as of dispatch: the store still holds the picked record. -/
def stC : SysState := ⟨[("c", runningJobC)], []⟩

/-- Claim C9 counterexample: when the store write fails (Database.save_job
catches the error and returns False) during failure handling, nothing is
propagated — the store keeps the stale record with retry_count 0, yet the
worker proceeds exactly as on success and re-enqueues the job whose in-memory
retry_count is already 1: the job's in-memory state silently diverges from
its last durable state. -/
theorem c9_counterexample :
    (handle_job_failure false stC runningJobC "boom" 5).1.store = stC.store ∧
    ("c", 1) ∈ (handle_job_failure false stC runningJobC "boom" 5).1.queue ∧
    (get_job (handle_job_failure false stC runningJobC "boom" 5).1.store
        "c").map Job.retry_count = some 0 ∧
    (runningJobC.mark_failed "boom" 5).retry_count = 1 := by decide

/-- Strips the success flag off persistence events, so that traces can be
compared modulo the outcome of the store write. -/
def eventShape : Event → Event
  | Event.persist j _ => Event.persist j true
  | e => e

/-- Claim C9 (amended): a failing store write during failure handling is
caught inside the store layer (Database.save_job logs and returns False) and
the worker ignores that boolean: the durable store is left unchanged while
the handling continues exactly as on a successful write — same resulting
broker queue, same event sequence up to the recorded write outcome — and no
failure is surfaced to the worker loop. -/
theorem c9_amended (st : SysState) (j : Job) (msg : String) (now : Nat) :
    (handle_job_failure false st j msg now).1.store = st.store ∧
    (handle_job_failure false st j msg now).1.queue =
      (handle_job_failure true st j msg now).1.queue ∧
    (handle_job_failure false st j msg now).2.map eventShape =
      (handle_job_failure true st j msg now).2.map eventShape := by
  rw [handle_job_failure, handle_job_failure]
  by_cases hsr : (j.mark_failed msg now).should_retry MAX_RETRIES = true
  · simp only [hsr]
    simp [eventShape]
  · simp only [hsr]
    simp [hsr, eventShape]

/-- Claim C5: the priority table maps high to a strictly smaller score than
low; zpopmin always removes an entry of minimum score; consequently, from a
state whose broker holds exactly the pending jobs A (priority high, score 1)
and B (priority low, score 2) — in either submission order — dispatch returns
A first, and the next dispatch returns B. -/
theorem c5_priority_order :
    (PRIORITY_SCORES "high" = some 1 ∧ PRIORITY_SCORES "low" = some 2 ∧
      (1 : Nat) < 2) ∧
    (∀ (q : SortedSet) (e : String × Nat) (q1 : SortedSet),
      zpopmin q = some (e, q1) → ∀ a ∈ q, e.2 ≤ a.2) ∧
    (∀ (idA idB : String) (jA jB : Job) (store : Store) (q : SortedSet)
        (now1 now2 : Nat),
      idA ≠ idB →
      get_job store idA = some jA → jA.status = "pending" → jA.job_id = idA →
      jA.priority = "high" →
      get_job store idB = some jB → jB.status = "pending" → jB.job_id = idB →
      jB.priority = "low" →
      (q = [(idA, 1), (idB, 2)] ∨ q = [(idB, 2), (idA, 1)]) →
      (get_next_job true ⟨store, q⟩ now1).1 = some (jA.mark_picked now1) ∧
      (get_next_job true (get_next_job true ⟨store, q⟩ now1).2 now2).1 =
        some (jB.mark_picked now2)) := by
  refine ⟨by decide, ?_, ?_⟩
  · intro q e q1 hpop a ha
    exact minEntry_le q e (zpopmin_eq_some q e q1 hpop).1 a ha
  · intro idA idB jA jB store q now1 now2 hne hgA hsA hidA hprA hgB hsB hidB
      hprB hq
    have hBA : ¬ ((idB, 2) = ((idA, 1) : String × Nat)) := by
      simp [Prod.ext_iff]
    have hgB1 : get_job (save_job store (jA.mark_picked now1)) idB = some jB := by
      rw [get_job_save_ne]
      · exact hgB
      · show idB ≠ (jA.mark_picked now1).job_id
        simp only [Job.mark_picked]
        rw [hidA]
        exact Ne.symm hne
    rcases hq with rfl | rfl
    · have hpop1 : zpopmin [(idA, 1), (idB, 2)] = some ((idA, 1), [(idB, 2)]) := by
        simp [zpopmin, minEntry, removeEntry]
      constructor
      · simp only [get_next_job, hpop1, hgA, hsA, if_true]
      · simp only [get_next_job, hpop1, hgA, hsA, if_true]
        have hpop2 : zpopmin [((idB : String), (2 : Nat))] =
            some ((idB, 2), []) := by
          simp [zpopmin, minEntry, removeEntry]
        simp only [get_next_job, hpop2, hgB1, hsB, if_true]
    · have hpop1 : zpopmin [(idB, 2), (idA, 1)] = some ((idA, 1), [(idB, 2)]) := by
        simp [zpopmin, minEntry, removeEntry, hBA]
      constructor
      · simp only [get_next_job, hpop1, hgA, hsA, if_true]
      · simp only [get_next_job, hpop1, hgA, hsA, if_true]
        have hpop2 : zpopmin [((idB : String), (2 : Nat))] =
            some ((idB, 2), []) := by
          simp [zpopmin, minEntry, removeEntry]
        simp only [get_next_job, hpop2, hgB1, hsB, if_true]

/-- Pending high-priority job used in the C5 witness. -/
def c5jobA : Job := mkJob "send_email" "high" "p" "wa" 0

/-- Pending low-priority job used in the C5 witness. -/
def c5jobB : Job := mkJob "send_email" "low" "p" "wb" 0

/-- Store holding the two pending C5 witness jobs. -/
def c5store : Store := [("wa", c5jobA), ("wb", c5jobB)]

/-- Concrete instance of the C5 theorem, with B submitted before A. -/
theorem c5_priority_order_witness :
    (get_next_job true ⟨c5store, [("wb", 2), ("wa", 1)]⟩ 3).1 =
      some (c5jobA.mark_picked 3) ∧
    (get_next_job true
        (get_next_job true ⟨c5store, [("wb", 2), ("wa", 1)]⟩ 3).2 4).1 =
      some (c5jobB.mark_picked 4) :=
  c5_priority_order.2.2 "wa" "wb" c5jobA c5jobB c5store [("wb", 2), ("wa", 1)]
    3 4 (by decide) (by decide) rfl rfl rfl (by decide) rfl rfl rfl
    (Or.inr rfl)

/-- Claim C1: retry_count is mutated only by mark_failed, which adds exactly
1 per failed execution attempt (mark_picked, mark_completed and creation do
not touch it, creation puts 0); and for a freshly submitted job alone in the
system whose executor fails on every attempt, MAX_RETRIES worker iterations
end with the job stored in the terminal "failed" status (the spec's
failed_permanent) with retry_count = MAX_RETRIES and the broker empty. -/
theorem c1_retry_bound (jt pr pl id : String) (now s0 t : Nat) :
    (∀ (j : Job) (msg : String) (n : Nat),
      (j.mark_failed msg n).retry_count = j.retry_count + 1 ∧
      (j.mark_picked n).retry_count = j.retry_count ∧
      (j.mark_completed n).retry_count = j.retry_count) ∧
    (mkJob jt pr pl id now).retry_count = 0 ∧
    run (fun _ => false) true MAX_RETRIES
        ⟨[(id, mkJob jt pr pl id now)], [(id, s0)]⟩ t =
      ⟨[(id, { job_id := id, job_type := jt, priority := pr, payload := pl,
               status := "failed", retry_count := MAX_RETRIES,
               created_at := now, picked_at := some (t + 2),
               completed_at := some (t + 2),
               error_message := some "Job execution failed" })], []⟩ := by
  refine ⟨fun j msg n => ⟨rfl, rfl, rfl⟩, rfl, ?_⟩
  simp [run, MAX_RETRIES, worker_iteration, get_next_job, process_job,
        handle_job_failure, execute_job, zpopmin, minEntry, removeEntry,
        get_job, save_job, removeKey, zadd, removeMember, mkJob,
        Job.mark_picked, Job.mark_failed, Job.mark_completed,
        Job.should_retry, RETRY_DELAYS]

/-- An unregistered-kind job alone in the system. -/
def zzzState : SysState := ⟨[("z", mkJob "zzz" "high" "p" "z" 0)], [("z", 1)]⟩

/-- A registered-kind job alone in the system. -/
def mailState : SysState :=
  ⟨[("m", mkJob "send_email" "high" "p" "m" 0)], [("m", 1)]⟩

/-- Claim C6 counterexample: one processing attempt of a job of unregistered
kind "zzz" records last_error "Job execution failed" — the very same generic
message recorded for a failing registered kind (send_email here) — so the
recorded message is not a configuration-error message indicating the unknown
kind. -/
theorem c6_counterexample :
    (get_job (worker_iteration (fun _ => true) true zzzState 0).1.store
        "z").map Job.error_message = some (some "Job execution failed") ∧
    (get_job (worker_iteration (fun _ => false) true mailState 0).1.store
        "m").map Job.error_message = some (some "Job execution failed") := by
  decide

/-- Claim C6 (amended): a job whose kind is not among the registered handlers
always fails execution (whatever the mock outcomes are), is subject to the
ordinary retry accounting, and after MAX_RETRIES attempts is permanently
failed with last_error equal to the same generic message "Job execution
failed" used for ordinary execution failures — a message that does not name
the unknown kind. -/
theorem c6_unknown_kind (jt pr pl id : String) (now s0 t : Nat)
    (outcome : Job → Bool) (h1 : jt ≠ "send_email") (h2 : jt ≠ "process_data")
    (h3 : jt ≠ "generate_report") :
    execute_job outcome (mkJob jt pr pl id now) = false ∧
    run outcome true MAX_RETRIES
        ⟨[(id, mkJob jt pr pl id now)], [(id, s0)]⟩ t =
      ⟨[(id, { job_id := id, job_type := jt, priority := pr, payload := pl,
               status := "failed", retry_count := MAX_RETRIES,
               created_at := now, picked_at := some (t + 2),
               completed_at := some (t + 2),
               error_message := some "Job execution failed" })], []⟩ := by
  constructor
  · simp [execute_job, mkJob, h1, h2, h3]
  · simp [run, MAX_RETRIES, worker_iteration, get_next_job, process_job,
          handle_job_failure, execute_job, zpopmin, minEntry, removeEntry,
          get_job, save_job, removeKey, zadd, removeMember, mkJob,
          Job.mark_picked, Job.mark_failed, Job.mark_completed,
          Job.should_retry, RETRY_DELAYS, h1, h2, h3]

/-- Concrete instance of the amended C6 theorem for kind "zzz". -/
theorem c6_unknown_kind_witness :
    execute_job (fun _ => true) (mkJob "zzz" "high" "p" "wz" 0) = false ∧
    run (fun _ => true) true MAX_RETRIES
        ⟨[("wz", mkJob "zzz" "high" "p" "wz" 0)], [("wz", 1)]⟩ 0 =
      ⟨[("wz", { job_id := "wz", job_type := "zzz", priority := "high",
                 payload := "p", status := "failed",
                 retry_count := MAX_RETRIES, created_at := 0,
                 picked_at := some (0 + 2), completed_at := some (0 + 2),
                 error_message := some "Job execution failed" })], []⟩ :=
  c6_unknown_kind "zzz" "high" "p" "wz" 0 1 0 (fun _ => true) (by decide)
    (by decide) (by decide)

/-! Invariant machinery for the state/queue agreement claim. -/

/-- State/queue agreement: a job id has a broker entry iff its durable record
exists and is pending. -/
def QueueAgrees (st : SysState) : Prop :=
  ∀ id, (∃ sc, (id, sc) ∈ st.queue) ↔
    (∃ j, get_job st.store id = some j ∧ j.status = "pending")

/-- Inductive invariant: broker members are distinct, records are keyed by
their own job_id, and broker membership agrees with pending status. -/
def Inv (st : SysState) : Prop :=
  (st.queue.map Prod.fst).Nodup ∧
  (∀ id j, get_job st.store id = some j → j.job_id = id) ∧
  QueueAgrees st

theorem exists_mem_removeEntry_ne (q : SortedSet) (id id' : String) (sc : Nat)
    (hid : id' ≠ id) :
    (∃ sc', (id', sc') ∈ removeEntry q (id, sc)) ↔ ∃ sc', (id', sc') ∈ q := by
  constructor
  · rintro ⟨sc', h⟩
    exact ⟨sc', mem_of_mem_removeEntry _ _ _ h⟩
  · rintro ⟨sc', h⟩
    exact ⟨sc', (mem_removeEntry_of_fst_ne _ _ _ hid).mpr h⟩

theorem exists_mem_zadd_ne (q : SortedSet) (id id' : String) (score : Nat)
    (hid : id' ≠ id) :
    (∃ sc, (id', sc) ∈ zadd q id score) ↔ ∃ sc, (id', sc) ∈ q := by
  constructor
  · rintro ⟨sc', h⟩
    rw [zadd] at h
    rcases List.mem_cons.mp h with heq | hmem
    · exact absurd (congrArg Prod.fst heq) hid
    · exact ⟨sc', (mem_removeMember_of_fst_ne _ _ _ hid).mp hmem⟩
  · rintro ⟨sc', h⟩
    exact ⟨sc', List.mem_cons_of_mem _
      ((mem_removeMember_of_fst_ne _ _ _ hid).mpr h)⟩

/-- After popping the entry of id and overwriting its record twice (picked,
then a non-pending final), the invariant is preserved. -/
theorem inv_pop_replace_nonpending (st : SysState) (id : String) (sc : Nat)
    (j1 j2 : Job) (hnd : (st.queue.map Prod.fst).Nodup)
    (hkeys : ∀ id' j, get_job st.store id' = some j → j.job_id = id')
    (hag : QueueAgrees st) (hmem : (id, sc) ∈ st.queue)
    (h1 : j1.job_id = id) (h2 : j2.job_id = id) (hs2 : j2.status ≠ "pending") :
    Inv ⟨save_job (save_job st.store j1) j2, removeEntry st.queue (id, sc)⟩ := by
  have hget2 : ∀ id', id' ≠ id →
      get_job (save_job (save_job st.store j1) j2) id' = get_job st.store id' := by
    intro id' hid
    rw [get_job_save_ne _ _ _ (by rw [h2]; exact hid),
        get_job_save_ne _ _ _ (by rw [h1]; exact hid)]
  have hgetid : get_job (save_job (save_job st.store j1) j2) id = some j2 := by
    conv_lhs => rw [← h2]
    exact get_job_save_self _ _
  refine ⟨nodup_fst_removeEntry _ _ hnd, ?_, ?_⟩
  · intro id' j hj
    by_cases hid : id' = id
    · subst id'
      rw [hgetid] at hj
      injection hj with hj2
      rw [← hj2]
      exact h2
    · rw [hget2 id' hid] at hj
      exact hkeys id' j hj
  · intro id'
    by_cases hid : id' = id
    · subst id'
      constructor
      · rintro ⟨sc', hsc'⟩
        exact absurd hsc' (not_mem_removeEntry_self st.queue (id, sc) hnd hmem sc')
      · rintro ⟨j, hj, hjs⟩
        rw [hgetid] at hj
        injection hj with hj2
        rw [← hj2] at hjs
        exact absurd hjs hs2
    · show (∃ sc', (id', sc') ∈ removeEntry st.queue (id, sc)) ↔
        (∃ j, get_job (save_job (save_job st.store j1) j2) id' = some j ∧
          j.status = "pending")
      rw [exists_mem_removeEntry_ne st.queue id id' sc hid, hget2 id' hid]
      exact hag id'

/-- After popping the entry of id, overwriting its record twice (picked, then
pending again) and re-adding the id, the invariant is preserved. -/
theorem inv_pop_replace_pending (st : SysState) (id : String) (sc score : Nat)
    (j1 j2 : Job) (hnd : (st.queue.map Prod.fst).Nodup)
    (hkeys : ∀ id' j, get_job st.store id' = some j → j.job_id = id')
    (hag : QueueAgrees st)
    (h1 : j1.job_id = id) (h2 : j2.job_id = id) (hs2 : j2.status = "pending") :
    Inv ⟨save_job (save_job st.store j1) j2,
         zadd (removeEntry st.queue (id, sc)) id score⟩ := by
  have hget2 : ∀ id', id' ≠ id →
      get_job (save_job (save_job st.store j1) j2) id' = get_job st.store id' := by
    intro id' hid
    rw [get_job_save_ne _ _ _ (by rw [h2]; exact hid),
        get_job_save_ne _ _ _ (by rw [h1]; exact hid)]
  have hgetid : get_job (save_job (save_job st.store j1) j2) id = some j2 := by
    conv_lhs => rw [← h2]
    exact get_job_save_self _ _
  refine ⟨nodup_fst_zadd _ _ _ (nodup_fst_removeEntry _ _ hnd), ?_, ?_⟩
  · intro id' j hj
    by_cases hid : id' = id
    · subst id'
      rw [hgetid] at hj
      injection hj with hj2
      rw [← hj2]
      exact h2
    · rw [hget2 id' hid] at hj
      exact hkeys id' j hj
  · intro id'
    by_cases hid : id' = id
    · subst id'
      refine iff_of_true ⟨score, ?_⟩ ⟨j2, hgetid, hs2⟩
      exact List.mem_cons_self _ _
    · show (∃ sc', (id', sc') ∈ zadd (removeEntry st.queue (id, sc)) id score) ↔
        (∃ j, get_job (save_job (save_job st.store j1) j2) id' = some j ∧
          j.status = "pending")
      rw [exists_mem_zadd_ne _ id id' score hid,
          exists_mem_removeEntry_ne st.queue id id' sc hid, hget2 id' hid]
      exact hag id'

/-- A complete /submit-job request preserves the invariant, the submitted id
being fresh (uuid4). -/
theorem inv_submit (st : SysState) (dbOk : Bool) (body : Option ReqBody)
    (new_id : String) (now : Nat) (hinv : Inv st) :
    Inv (submit_job dbOk body new_id now st).2 := by
  obtain ⟨hnd, hkeys, hag⟩ := hinv
  rcases body with _ | b
  · exact ⟨hnd, hkeys, hag⟩
  obtain ⟨jt, pr, pl⟩ := b
  rcases jt with _ | jt
  · exact ⟨hnd, hkeys, hag⟩
  rcases pr with _ | pr
  · exact ⟨hnd, hkeys, hag⟩
  rcases pl with _ | pl
  · exact ⟨hnd, hkeys, hag⟩
  simp only [submit_job]
  by_cases hpr : pr = "high" ∨ pr = "low"
  · by_cases hjt : jt = "send_email" ∨ jt = "process_data" ∨
        jt = "generate_report"
    · cases dbOk with
      | false =>
        simp only [hpr, hjt, if_true, Bool.false_eq_true, if_false]
        exact ⟨hnd, hkeys, hag⟩
      | true =>
        simp only [hpr, hjt, if_true]
        refine ⟨nodup_fst_zadd _ _ _ hnd, ?_, ?_⟩
        · intro id' j hj
          by_cases hid : id' = new_id
          · subst id'
            rw [show get_job (save_job st.store (mkJob jt pr pl new_id now))
                  new_id = some (mkJob jt pr pl new_id now)
                from get_job_save_self _ _] at hj
            injection hj with hj2
            rw [← hj2]
            rfl
          · rw [get_job_save_ne _ _ _ hid] at hj
            exact hkeys id' j hj
        · intro id'
          by_cases hid : id' = new_id
          · subst id'
            refine iff_of_true ⟨(PRIORITY_SCORES pr).getD 0, ?_⟩
              ⟨mkJob jt pr pl new_id now, get_job_save_self _ _, rfl⟩
            exact List.mem_cons_self _ _
          · show (∃ sc, (id', sc) ∈
                zadd st.queue new_id ((PRIORITY_SCORES pr).getD 0)) ↔
              (∃ j, get_job (save_job st.store (mkJob jt pr pl new_id now))
                id' = some j ∧ j.status = "pending")
            rw [exists_mem_zadd_ne st.queue new_id id' _ hid,
                get_job_save_ne _ _ _ hid]
            exact hag id'
    · simp only [hpr, hjt, if_true, if_false]
      exact ⟨hnd, hkeys, hag⟩
  · simp only [hpr, if_false]
    exact ⟨hnd, hkeys, hag⟩

/-- A complete worker iteration under normal store operation preserves the
invariant. -/
theorem inv_work (st : SysState) (outcome : Job → Bool) (now : Nat)
    (hinv : Inv st) : Inv (worker_iteration outcome true st now).1 := by
  obtain ⟨hnd, hkeys, hag⟩ := hinv
  cases hpop : zpopmin st.queue with
  | none =>
    have hgnj : get_next_job true st now = (none, st) := by
      simp only [get_next_job, hpop]
    simp only [worker_iteration, hgnj]
    exact ⟨hnd, hkeys, hag⟩
  | some p =>
    obtain ⟨⟨id, sc⟩, q1⟩ := p
    obtain ⟨hmin, hq1⟩ := zpopmin_eq_some st.queue (id, sc) q1 hpop
    have hmem : (id, sc) ∈ st.queue := minEntry_mem st.queue _ hmin
    obtain ⟨job, hjob, hpend⟩ := (hag id).mp ⟨sc, hmem⟩
    have hjid : job.job_id = id := hkeys id job hjob
    have hj1id : (job.mark_picked now).job_id = id := hjid
    have hgnj : get_next_job true st now = (some (job.mark_picked now),
        ⟨save_job st.store (job.mark_picked now), q1⟩) := by
      simp only [get_next_job, hpop]
      have hjob2 : get_job st.store (id, sc).1 = some job := hjob
      simp [hjob2, hpend]
    simp only [worker_iteration, hgnj]
    subst hq1
    rw [process_job]
    cases hex : execute_job outcome (job.mark_picked now) with
    | true =>
      simp only [hex, if_true]
      apply inv_pop_replace_nonpending st id sc (job.mark_picked now)
        ((job.mark_picked now).mark_completed now) hnd hkeys hag hmem hj1id
        hj1id (by simp [Job.mark_completed])
    | false =>
      simp only [hex, Bool.false_eq_true, if_false]
      rw [handle_job_failure]
      by_cases hsr : ((job.mark_picked now).mark_failed "Job execution failed"
          now).should_retry MAX_RETRIES = true
      · simp only [hsr, if_true]
        have hfid : (((job.mark_picked now).mark_failed "Job execution failed"
            now)).job_id = id := hj1id
        show Inv ⟨save_job (save_job st.store (job.mark_picked now))
            { (job.mark_picked now).mark_failed "Job execution failed" now with
                status := "pending" },
          zadd (removeEntry st.queue (id, sc))
            ({ (job.mark_picked now).mark_failed "Job execution failed" now with
                status := "pending" } : Job).job_id
            ((PRIORITY_SCORES ({ (job.mark_picked now).mark_failed
                "Job execution failed" now with
                status := "pending" } : Job).priority).getD 0)⟩
        rw [show ({ (job.mark_picked now).mark_failed "Job execution failed"
              now with status := "pending" } : Job).job_id = id from hj1id]
        exact inv_pop_replace_pending st id sc _ (job.mark_picked now) _ hnd
          hkeys hag hj1id hj1id rfl
      · simp only [hsr, if_false]
        apply inv_pop_replace_nonpending st id sc (job.mark_picked now)
          ((job.mark_picked now).mark_failed "Job execution failed" now) hnd
          hkeys hag hmem hj1id hj1id (by simp [Job.mark_failed])

/-- Quiescent points of the system: the empty initial state, the state after
any complete /submit-job request (with a fresh id, as uuid4 guarantees), and
the state after any complete worker iteration under normal store operation. -/
inductive Reachable : SysState → Prop where
  | init : Reachable ⟨[], []⟩
  | submit (st : SysState) (dbOk : Bool) (body : Option ReqBody)
      (new_id : String) (now : Nat) (hst : Reachable st)
      (hfresh : get_job st.store new_id = none) :
      Reachable (submit_job dbOk body new_id now st).2
  | work (st : SysState) (outcome : Job → Bool) (now : Nat)
      (hst : Reachable st) : Reachable (worker_iteration outcome true st now).1

/-- Every quiescent point satisfies the inductive invariant. -/
theorem reachable_inv (st : SysState) (h : Reachable st) : Inv st := by
  induction h with
  | init =>
    refine ⟨List.nodup_nil, fun id j hj => by simp [get_job] at hj, fun id => ?_⟩
    simp [get_job]
  | submit st dbOk body new_id now hst hfresh ih =>
    exact inv_submit st dbOk body new_id now ih
  | work st outcome now hst ih => exact inv_work st outcome now ih

/-- Claim C2: at every quiescent point (any state reached by complete
submissions and complete worker iterations, nothing in flight) a job id has
an entry in the priority broker if and only if its durable record exists with
status pending — in particular no other status ever coexists with a broker
entry at such a point. -/
theorem c2_state_queue_agreement (st : SysState) (h : Reachable st) :
    ∀ id, (∃ sc, (id, sc) ∈ st.queue) ↔
      (∃ j, get_job st.store id = some j ∧ j.status = "pending") :=
  (reachable_inv st h).2.2

/-- Concrete instance of the C2 theorem after one successful submission. -/
theorem c2_state_queue_agreement_witness :
    (∃ sc, (("wa2" : String), sc) ∈
        (submit_job true (some ⟨some "send_email", some "high", some "x"⟩)
          "wa2" 0 ⟨[], []⟩).2.queue) ↔
      (∃ j, get_job (submit_job true (some ⟨some "send_email", some "high",
            some "x"⟩) "wa2" 0 ⟨[], []⟩).2.store "wa2" = some j ∧
        j.status = "pending") :=
  c2_state_queue_agreement _
    (Reachable.submit ⟨[], []⟩ true _ "wa2" 0 Reachable.init rfl) "wa2"

end JobApi
